import Mathlib

/-!
Shallow embedding of the transactional outbox/inbox core of the
observability-system repository.  Tables are lists of row structures;
SQL statements become pure functions on those lists.  Timestamps are
integers (minutes); `now` is passed explicitly.  The lease TTL interval
of 5 minutes appears as the literal 5, mirroring `INTERVAL '5 minutes'`.
-/

namespace ObsSys

instance : DecidableEq (Except String Unit) := fun a b =>
  match a, b with
  | .ok (), .ok () => isTrue rfl
  | .error x, .error y =>
    if h : x = y then isTrue (by rw [h])
    else isFalse (by intro hc; cases hc; exact h rfl)
  | .ok (), .error _ => isFalse (by intro h; cases h)
  | .error _, .ok () => isFalse (by intro h; cases h)

/-- Ordering relation used by `ORDER BY created_at ASC` (keyed comparison). -/
def keyLE {α : Type} (key : α → Int) (a b : α) : Prop := key a ≤ key b

/-- Ordering relation used by `ORDER BY created_at DESC`. -/
def keyGE {α : Type} (key : α → Int) (a b : α) : Prop := key b ≤ key a

instance {α : Type} (key : α → Int) : DecidableRel (keyLE key) :=
  fun a b => inferInstanceAs (Decidable (key a ≤ key b))

instance {α : Type} (key : α → Int) : DecidableRel (keyGE key) :=
  fun a b => inferInstanceAs (Decidable (key b ≤ key a))

instance {α : Type} (key : α → Int) : IsTotal α (keyLE key) :=
  ⟨fun a b => Int.le_total (key a) (key b)⟩

instance {α : Type} (key : α → Int) : IsTotal α (keyGE key) :=
  ⟨fun a b => Int.le_total (key b) (key a)⟩

instance {α : Type} (key : α → Int) : IsTrans α (keyLE key) :=
  ⟨fun _ _ _ hab hbc => le_trans hab hbc⟩

instance {α : Type} (key : α → Int) : IsTrans α (keyGE key) :=
  ⟨fun _ _ _ hab hbc => le_trans hbc hab⟩

/-- `ORDER BY key ASC` as insertion sort. -/
def sortAsc {α : Type} (key : α → Int) (l : List α) : List α :=
  List.insertionSort (keyLE key) l

/-- `ORDER BY key DESC` as insertion sort. -/
def sortDesc {α : Type} (key : α → Int) (l : List α) : List α :=
  List.insertionSort (keyGE key) l

/-- Shared shape of the leasing statement
`UPDATE ... WHERE id IN (SELECT id ... WHERE elig ORDER BY created_at ASC LIMIT batchSize FOR UPDATE SKIP LOCKED) ... RETURNING ...`:
filter the eligible rows, order them by `created_at`, keep at most
`batchSize`, apply the lock update to the chosen rows in the table, and
return the updated rows. -/
def leaseRows {α : Type} (key idOf : α → Int) (elig : α → Bool) (lock : α → α)
    (tbl : List α) (batchSize : Nat) : List α × List α :=
  let selected := (sortAsc key (tbl.filter elig)).take batchSize
  let ids := selected.map idOf
  (selected.map lock,
   tbl.map (fun r => if ids.contains (idOf r) then lock r else r))

end ObsSys

namespace ObsSys.inbox

/-- Row of the order-service `inbox` table
(`order-service/internal/inbox`, sqlx variant). -/
structure InboxMessage where
  id : Int
  messageID : String
  eventType : String
  payload : String
  status : String
  createdAt : Int
  updatedAt : Int
  retryCount : Nat
  lockedAt : Option Int
  lockedBy : Option String
  error : Option String
deriving DecidableEq

/-- `InboxStore.Save`: `INSERT INTO inbox (message_id, event_type, payload, status)
VALUES ($1,$2,$3,'PENDING') ON CONFLICT (message_id) DO NOTHING`; when
`RowsAffected` is 0 the Go code returns the error `message already exists: id`. -/
def Save (tbl : List InboxMessage) (messageID eventType payload : String)
    (now nextId : Int) : List InboxMessage × Except String Unit :=
  if tbl.any (fun r => r.messageID == messageID) then
    (tbl, .error ("message already exists: " ++ messageID))
  else
    (tbl ++ [{ id := nextId, messageID := messageID, eventType := eventType,
               payload := payload, status := "PENDING", createdAt := now,
               updatedAt := now, retryCount := 0, lockedAt := none,
               lockedBy := none, error := none }], .ok ())

/-- `SELECT * FROM inbox ORDER BY created_at DESC LIMIT 100`; on a database
error the Go code returns `[]InboxMessage{}, nil` (the error is swallowed). -/
def GetAll (tbl : List InboxMessage) (dbFails : Bool) :
    List InboxMessage × Option String :=
  if dbFails then ([], none)
  else ((sortDesc (fun r => r.createdAt) tbl).take 100, none)

/-- Row eligibility in `GetPendingMessagesForProcessing`:
`(status = 'PENDING' OR (status = 'FAILED' AND retry_count < $3)) AND
(locked_at IS NULL OR locked_at < NOW() - INTERVAL '5 minutes')`. -/
def leaseEligible (r : InboxMessage) (maxRetries : Nat) (now : Int) : Bool :=
  (r.status == "PENDING" || (r.status == "FAILED" && r.retryCount < maxRetries)) &&
  (match r.lockedAt with
   | none => true
   | some t => decide (t < now - 5))

/-- The `SET` clause of the leasing update: status PROCESSING, lock fields,
`updated_at = NOW()`. -/
def lockRow (r : InboxMessage) (workerID : String) (now : Int) : InboxMessage :=
  { r with status := "PROCESSING", lockedAt := some now,
           lockedBy := some workerID, updatedAt := now }

/-- `InboxStore.GetPendingMessagesForProcessing`: the atomic lease statement.
Returns (returned rows, updated table). -/
def GetPendingMessagesForProcessing (tbl : List InboxMessage) (workerID : String)
    (batchSize maxRetries : Nat) (now : Int) : List InboxMessage × List InboxMessage :=
  leaseRows (fun r => r.createdAt) (fun r => r.id)
    (fun r => leaseEligible r maxRetries now)
    (fun r => lockRow r workerID now) tbl batchSize

/-- `MarkAsProcessed`: `SET status='PROCESSED', updated_at=NOW(),
locked_at=NULL, locked_by=NULL WHERE id = $1`. -/
def MarkAsProcessed (tbl : List InboxMessage) (messageID : Int) (now : Int) :
    List InboxMessage :=
  tbl.map (fun r => if r.id == messageID then
    { r with status := "PROCESSED", updatedAt := now,
             lockedAt := none, lockedBy := none } else r)

/-- `IncrementRetryAndMarkPending`: `SET status='PENDING',
retry_count=retry_count+1, updated_at=NOW(), locked_at=NULL, locked_by=NULL,
error=$2 WHERE id = $1`. -/
def IncrementRetryAndMarkPending (tbl : List InboxMessage) (messageID : Int)
    (errorMsg : String) (now : Int) : List InboxMessage :=
  tbl.map (fun r => if r.id == messageID then
    { r with status := "PENDING", retryCount := r.retryCount + 1,
             updatedAt := now, lockedAt := none, lockedBy := none,
             error := some errorMsg } else r)

/-- `MarkAsFailed`: `SET status='FAILED', retry_count=retry_count+1,
updated_at=NOW(), locked_at=NULL, locked_by=NULL, error=$2 WHERE id = $1`. -/
def MarkAsFailed (tbl : List InboxMessage) (messageID : Int)
    (errorMsg : String) (now : Int) : List InboxMessage :=
  tbl.map (fun r => if r.id == messageID then
    { r with status := "FAILED", retryCount := r.retryCount + 1,
             updatedAt := now, lockedAt := none, lockedBy := none,
             error := some errorMsg } else r)

/-- `MessageExists`: `SELECT EXISTS(SELECT 1 FROM inbox WHERE message_id = $1)`. -/
def MessageExists (tbl : List InboxMessage) (messageID : String) : Bool :=
  tbl.any (fun r => r.messageID == messageID)

/-- Condition of `ResetStuckMessages`: `status = 'PROCESSING' AND
locked_at < NOW() - INTERVAL '1 minute' * $1` (NULL `locked_at` never matches). -/
def stuckCond (r : InboxMessage) (timeoutMinutes now : Int) : Bool :=
  r.status == "PROCESSING" &&
  (match r.lockedAt with
   | none => false
   | some t => decide (t < now - timeoutMinutes))

/-- `ResetStuckMessages`: `SET status='PENDING', locked_at=NULL,
locked_by=NULL, updated_at=NOW()` on stuck rows; returns (table, RowsAffected). -/
def ResetStuckMessages (tbl : List InboxMessage) (timeoutMinutes now : Int) :
    List InboxMessage × Nat :=
  (tbl.map (fun r => if stuckCond r timeoutMinutes now then
      { r with status := "PENDING", lockedAt := none, lockedBy := none,
               updatedAt := now } else r),
   (tbl.filter (fun r => stuckCond r timeoutMinutes now)).length)

end ObsSys.inbox

namespace ObsSys.inbox

/-- Per-message finalization of `InboxWorker.processMessages`: on handler
error choose `MarkAsFailed` when `msg.RetryCount+1 >= w.maxRetries` and
`IncrementRetryAndMarkPending` otherwise; on success `MarkAsProcessed`. -/
def processOne (tbl : List InboxMessage) (maxRetries : Nat) (now : Int)
    (msg : InboxMessage) (result : Except String Unit) : List InboxMessage :=
  match result with
  | .error e =>
    if msg.retryCount + 1 ≥ maxRetries then MarkAsFailed tbl msg.id e now
    else IncrementRetryAndMarkPending tbl msg.id e now
  | .ok _ => MarkAsProcessed tbl msg.id now

/-- One tick of `InboxWorker.processMessages`: lease a batch, invoke the
handler on each leased row, finalize each.  Returns (number of handler
invocations, table after the tick). -/
def processMessages (handler : InboxMessage → Except String Unit)
    (tbl : List InboxMessage) (workerID : String) (batchSize maxRetries : Nat)
    (now : Int) : Nat × List InboxMessage :=
  let res := GetPendingMessagesForProcessing tbl workerID batchSize maxRetries now
  (res.1.length, res.1.foldl (fun t m => processOne t maxRetries now m (handler m)) res.2)

/-- Iterated worker ticks, advancing the clock by one per tick; accumulates
the handler invocation count. -/
def runCycles (handler : InboxMessage → Except String Unit) (workerID : String)
    (batchSize maxRetries : Nat) : Nat → List InboxMessage → Int → Nat × List InboxMessage
  | 0, tbl, _ => (0, tbl)
  | n + 1, tbl, now =>
    let step := processMessages handler tbl workerID batchSize maxRetries now
    let rest := runCycles handler workerID batchSize maxRetries n step.2 (now + 1)
    (step.1 + rest.1, rest.2)

end ObsSys.inbox

namespace ObsSys.outbox

/-- Row of the order-service `outbox` table (sqlx variant). -/
structure OutboxMessage where
  id : Int
  messageID : String
  eventType : String
  payload : String
  status : String
  createdAt : Int
  updatedAt : Int
  retryCount : Nat
  lockedAt : Option Int
  lockedBy : Option String
  error : Option String
  exchange : String
  routingKey : String
deriving DecidableEq

/-- Row eligibility in `OutboxStore.GetPendingMessagesForProcessing`:
`status = 'PENDING' AND (locked_at IS NULL OR locked_at < NOW() - INTERVAL '5 minutes')`. -/
def leaseEligible (r : OutboxMessage) (now : Int) : Bool :=
  r.status == "PENDING" &&
  (match r.lockedAt with
   | none => true
   | some t => decide (t < now - 5))

/-- The `SET` clause of the outbox leasing update. -/
def lockRow (r : OutboxMessage) (workerID : String) (now : Int) : OutboxMessage :=
  { r with status := "PROCESSING", lockedAt := some now,
           lockedBy := some workerID, updatedAt := now }

/-- `OutboxStore.GetPendingMessagesForProcessing`: the atomic lease statement
of the sqlx outbox store.  Returns (returned rows, updated table). -/
def GetPendingMessagesForProcessing (tbl : List OutboxMessage) (workerID : String)
    (batchSize : Nat) (now : Int) : List OutboxMessage × List OutboxMessage :=
  leaseRows (fun r => r.createdAt) (fun r => r.id)
    (fun r => leaseEligible r now)
    (fun r => lockRow r workerID now) tbl batchSize

/-- Condition of the outbox `ResetStuckMessages` update. -/
def stuckCond (r : OutboxMessage) (timeoutMinutes now : Int) : Bool :=
  r.status == "PROCESSING" &&
  (match r.lockedAt with
   | none => false
   | some t => decide (t < now - timeoutMinutes))

/-- `OutboxStore.ResetStuckMessages`: resets stuck PROCESSING rows to
PENDING with cleared lock fields; returns (table, RowsAffected). -/
def ResetStuckMessages (tbl : List OutboxMessage) (timeoutMinutes now : Int) :
    List OutboxMessage × Nat :=
  (tbl.map (fun r => if stuckCond r timeoutMinutes now then
      { r with status := "PENDING", lockedAt := none, lockedBy := none,
               updatedAt := now } else r),
   (tbl.filter (fun r => stuckCond r timeoutMinutes now)).length)

end ObsSys.outbox

namespace ObsSys.woutbox

/-- Legacy warehouse-service `OutboxStore.GetPendingMessages`
(database/sql variant): `SELECT ... FROM outbox WHERE status = 'PENDING' OR
status = 'pending' ORDER BY created_at ASC LIMIT $1`.  No locking, no update. -/
def GetPendingMessages (tbl : List ObsSys.outbox.OutboxMessage) (limit : Nat) :
    List ObsSys.outbox.OutboxMessage :=
  (ObsSys.sortAsc (fun r => r.createdAt)
    (tbl.filter (fun r => r.status == "PENDING" || r.status == "pending"))).take limit

end ObsSys.woutbox

namespace ObsSys.winbox

/-- Row of the warehouse-service `inbox` table
(`warehouse-service/internal/inbox`, database/sql variant; has `sender_id`). -/
structure InboxMessage where
  id : Int
  messageID : String
  eventType : String
  payload : String
  status : String
  createdAt : Int
  updatedAt : Int
  retryCount : Nat
  senderID : String
  exchange : String
  routingKey : String
  error : Option String
  lockedAt : Option Int
  lockedBy : Option String
deriving DecidableEq

/-- Warehouse `InboxStore.Save`: `INSERT INTO inbox (message_id, event_type,
payload, status, sender_id, exchange) VALUES ($1,$2,$3,'PENDING',$4,'inventory')
ON CONFLICT (message_id) DO NOTHING`; a duplicate only logs and returns nil. -/
def Save (tbl : List InboxMessage) (messageID eventType payload : String)
    (now nextId : Int) : List InboxMessage × Except String Unit :=
  if tbl.any (fun r => r.messageID == messageID) then
    (tbl, .ok ())
  else
    (tbl ++ [{ id := nextId, messageID := messageID, eventType := eventType,
               payload := payload, status := "PENDING", createdAt := now,
               updatedAt := now, retryCount := 0, senderID := "unknown",
               exchange := "inventory", routingKey := "", error := none,
               lockedAt := none, lockedBy := none }], .ok ())

/-- Warehouse `MarkAsProcessed`: `SET status = 'processed',
updated_at = CURRENT_TIMESTAMP WHERE message_id = $1`. -/
def MarkAsProcessed (tbl : List InboxMessage) (messageID : String) (now : Int) :
    List InboxMessage :=
  tbl.map (fun r => if r.messageID == messageID then
    { r with status := "processed", updatedAt := now } else r)

/-- Warehouse `MarkAsFailed`: `SET status = 'failed',
retry_count = retry_count + 1, updated_at = CURRENT_TIMESTAMP
WHERE message_id = $1`. -/
def MarkAsFailed (tbl : List InboxMessage) (messageID : String) (now : Int) :
    List InboxMessage :=
  tbl.map (fun r => if r.messageID == messageID then
    { r with status := "failed", retryCount := r.retryCount + 1,
             updatedAt := now } else r)

/-- Warehouse `MessageExists`. -/
def MessageExists (tbl : List InboxMessage) (messageID : String) : Bool :=
  tbl.any (fun r => r.messageID == messageID)

/-- The inbox ingress guard `InboxHandler`: check `MessageExists`, ack
duplicates, otherwise `Save`, invoke the business handler (its outcome is the
`outcome` argument), then `MarkAsProcessed` on success or `MarkAsFailed` on
error.  Returns (table, whether the business handler was invoked, result
returned to the broker adapter). -/
def InboxHandler (tbl : List InboxMessage) (msgId msgType msgPayload : String)
    (outcome : Except String Unit) (now nextId : Int) :
    List InboxMessage × Bool × Except String Unit :=
  if MessageExists tbl msgId then (tbl, false, .ok ())
  else
    let tbl1 := (Save tbl msgId msgType msgPayload now nextId).1
    match outcome with
    | .error e => (MarkAsFailed tbl1 msgId now, true, .error e)
    | .ok _ => (MarkAsProcessed tbl1 msgId now, true, .ok ())

/-- A sequence of broker deliveries of the same message, each processed by
the ingress guard; `outcomes` gives the business handler's outcome for each
delivery at which it would be invoked.  Returns the per-delivery
(invoked, result) pairs and the final table. -/
def runDeliveries (tbl : List InboxMessage) (msgId msgType msgPayload : String)
    (outcomes : List (Except String Unit)) (now nextId : Int) :
    List (Bool × Except String Unit) × List InboxMessage :=
  match outcomes with
  | [] => ([], tbl)
  | o :: os =>
    let step := InboxHandler tbl msgId msgType msgPayload o now nextId
    let rest := runDeliveries step.1 msgId msgType msgPayload os (now + 1) (nextId + 1)
    ((step.2.1, step.2.2) :: rest.1, rest.2)

end ObsSys.winbox

namespace ObsSys.handlers

open ObsSys.inbox

/-- `HandlerFunc`: the business handler signature of the registry. -/
def HandlerFunc := InboxMessage → Except String Unit

/-- The registry's map, keyed by event type; `Register` puts the newest
binding first (a Go map overwrite). -/
def Register (handlers : List (String × HandlerFunc)) (eventType : String)
    (h : HandlerFunc) : List (String × HandlerFunc) :=
  (eventType, h) :: handlers

/-- Map lookup `r.handlers[msg.EventType]`. -/
def lookupHandler : List (String × HandlerFunc) → String → Option HandlerFunc
  | [], _ => none
  | (k, h) :: rest, t => if k == t then some h else lookupHandler rest t

/-- `MessageHandlerRegistry.HandleMessage`: when no handler is registered for
the event type, log a warning and return nil; otherwise invoke the handler.
Returns (result, warning logged, event type whose handler was invoked). -/
def HandleMessage (handlers : List (String × HandlerFunc)) (msg : InboxMessage) :
    Except String Unit × Bool × Option String :=
  match lookupHandler handlers msg.eventType with
  | none => (.ok (), true, none)
  | some h => (h msg, false, some msg.eventType)

/-- Response of an HTTP endpoint, reduced to status code and reported count. -/
structure HttpResponse where
  statusCode : Nat
  count : Nat
deriving DecidableEq

/-- `InboxHandler.GetInboxMessages` (GET /api/inbox): calls `GetAll`; a
non-nil error yields 500, otherwise 200 with the message count. -/
def GetInboxMessages (tbl : List InboxMessage) (dbFails : Bool) : HttpResponse :=
  let res := GetAll tbl dbFails
  match res.2 with
  | some _ => { statusCode := 500, count := 0 }
  | none => { statusCode := 200, count := res.1.length }

end ObsSys.handlers

namespace ObsSys

/-- Whether a call result is a success. -/
def isOkE : Except String Unit → Bool
  | .ok _ => true
  | .error _ => false

end ObsSys

namespace ObsSys.inbox

/-- The operations the order-service inbox subsystem performs on the inbox
table: HTTP-triggered `Save` (with a fresh serial id), the worker's lease,
the worker's per-message finalization (`processOne` applied to a leased copy
of a current row), and `ResetStuckMessages`. -/
inductive WorkerOp (maxRetries : Nat) : List InboxMessage → List InboxMessage → Prop
  | save (tbl : List InboxMessage) (mid ty pl : String) (now nextId : Int)
      (hfresh : ∀ r ∈ tbl, r.id ≠ nextId) :
      WorkerOp maxRetries tbl (Save tbl mid ty pl now nextId).1
  | lease (tbl : List InboxMessage) (wid : String) (bs : Nat) (now : Int) :
      WorkerOp maxRetries tbl (GetPendingMessagesForProcessing tbl wid bs maxRetries now).2
  | finalize (tbl : List InboxMessage) (msg : InboxMessage) (res : Except String Unit)
      (now : Int) (hmem : msg ∈ tbl) :
      WorkerOp maxRetries tbl (processOne tbl maxRetries now msg res)
  | reset (tbl : List InboxMessage) (tmo now : Int) :
      WorkerOp maxRetries tbl (ResetStuckMessages tbl tmo now).1

/-- A row with a FAILED status (canonical upper case or legacy lower case)
has exhausted its retry budget. -/
def FailedInv (maxRetries : Nat) (tbl : List InboxMessage) : Prop :=
  ∀ r ∈ tbl, (r.status = "FAILED" ∨ r.status = "failed") → maxRetries ≤ r.retryCount

/-- Well-formed table: serial ids are distinct and `FailedInv` holds. -/
def Inv (maxRetries : Nat) (tbl : List InboxMessage) : Prop :=
  (tbl.map (fun r => r.id)).Nodup ∧ FailedInv maxRetries tbl

end ObsSys.inbox

namespace ObsSys.fix

/-- Fresh PENDING inbox row for message M3 (scenario S4). -/
def m3Row : inbox.InboxMessage :=
  { id := 1, messageID := "M3", eventType := "order.created", payload := "p",
    status := "PENDING", createdAt := 0, updatedAt := 0, retryCount := 0,
    lockedAt := none, lockedBy := none, error := none }

/-- The M3 row after three failing worker cycles with maxRetries = 3. -/
def m3Failed : inbox.InboxMessage :=
  { id := 1, messageID := "M3", eventType := "order.created", payload := "p",
    status := "FAILED", createdAt := 0, updatedAt := 2, retryCount := 3,
    lockedAt := none, lockedBy := none, error := some "boom" }

/-- An order-service inbox row already holding message id m1. -/
def dupRowO : inbox.InboxMessage :=
  { id := 1, messageID := "m1", eventType := "t", payload := "p",
    status := "PROCESSED", createdAt := 0, updatedAt := 0, retryCount := 0,
    lockedAt := none, lockedBy := none, error := none }

/-- A warehouse inbox row already holding message id m1. -/
def dupRowW : winbox.InboxMessage :=
  { id := 1, messageID := "m1", eventType := "t", payload := "p",
    status := "processed", createdAt := 0, updatedAt := 0, retryCount := 0,
    senderID := "unknown", exchange := "inventory", routingKey := "",
    error := none, lockedAt := none, lockedBy := none }

/-- The row the ingress guard produces for a failing first delivery of m1. -/
def wFailedRow : winbox.InboxMessage :=
  { id := 1, messageID := "m1", eventType := "order.created", payload := "p",
    status := "failed", createdAt := 0, updatedAt := 0, retryCount := 1,
    senderID := "unknown", exchange := "inventory", routingKey := "",
    error := none, lockedAt := none, lockedBy := none }

/-- An outbox row stuck in PROCESSING with a stale lock (locked at 0). -/
def stuckProcRow : outbox.OutboxMessage :=
  { id := 1, messageID := "m1", eventType := "t", payload := "p",
    status := "PROCESSING", createdAt := 0, updatedAt := 0, retryCount := 0,
    lockedAt := some 0, lockedBy := some "w0", error := none,
    exchange := "", routingKey := "" }

/-- An outbox row with the legacy lowercase pending status. -/
def pendingLowerRow : outbox.OutboxMessage :=
  { id := 1, messageID := "m1", eventType := "t", payload := "p",
    status := "pending", createdAt := 0, updatedAt := 0, retryCount := 0,
    lockedAt := none, lockedBy := none, error := none,
    exchange := "", routingKey := "" }

/-- The same outbox row with the canonical uppercase PENDING status. -/
def pendingUpperRow : outbox.OutboxMessage :=
  { id := 1, messageID := "m1", eventType := "t", payload := "p",
    status := "PENDING", createdAt := 0, updatedAt := 0, retryCount := 0,
    lockedAt := none, lockedBy := none, error := none,
    exchange := "", routingKey := "" }

/-- The M3 row after `MarkAsProcessed` at time 0. -/
def m3Processed : inbox.InboxMessage :=
  { id := 1, messageID := "M3", eventType := "order.created", payload := "p",
    status := "PROCESSED", createdAt := 0, updatedAt := 0, retryCount := 0,
    lockedAt := none, lockedBy := none, error := none }

end ObsSys.fix

namespace ObsSys

theorem sortAsc_sorted {α : Type} (key : α → Int) (l : List α) :
    List.Pairwise (keyLE key) (sortAsc key l) :=
  List.sorted_insertionSort _ l

theorem sortDesc_sorted {α : Type} (key : α → Int) (l : List α) :
    List.Pairwise (keyGE key) (sortDesc key l) :=
  List.sorted_insertionSort _ l

theorem sortAsc_perm {α : Type} (key : α → Int) (l : List α) :
    (sortAsc key l).Perm l :=
  List.perm_insertionSort _ l

theorem leaseRows_fst {α : Type} (key idOf : α → Int) (elig : α → Bool)
    (lock : α → α) (tbl : List α) (bs : Nat) :
    (leaseRows key idOf elig lock tbl bs).1
      = ((sortAsc key (tbl.filter elig)).take bs).map lock := rfl

theorem leaseRows_snd {α : Type} (key idOf : α → Int) (elig : α → Bool)
    (lock : α → α) (tbl : List α) (bs : Nat) :
    (leaseRows key idOf elig lock tbl bs).2
      = tbl.map (fun r =>
          if (((sortAsc key (tbl.filter elig)).take bs).map idOf).contains (idOf r)
          then lock r else r) := rfl

theorem leaseRows_fst_length {α : Type} (key idOf : α → Int) (elig : α → Bool)
    (lock : α → α) (tbl : List α) (bs : Nat) :
    (leaseRows key idOf elig lock tbl bs).1.length ≤ bs := by
  rw [leaseRows_fst, List.length_map]
  exact List.length_take_le _ _

theorem leaseRows_fst_sorted {α : Type} (key idOf : α → Int) (elig : α → Bool)
    (lock : α → α) (tbl : List α) (bs : Nat)
    (hkey : ∀ r, key (lock r) = key r) :
    List.Pairwise (fun a b => key a ≤ key b) ((leaseRows key idOf elig lock tbl bs).1) := by
  rw [leaseRows_fst]
  have h2 : List.Pairwise (keyLE key) ((sortAsc key (tbl.filter elig)).take bs) :=
    List.Pairwise.sublist (List.take_sublist _ _) (sortAsc_sorted key _)
  refine List.pairwise_map.mpr (h2.imp ?_)
  intro a b hab
  rw [hkey, hkey]
  exact hab

theorem leaseRows_fst_src {α : Type} (key idOf : α → Int) (elig : α → Bool)
    (lock : α → α) (tbl : List α) (bs : Nat) :
    ∀ s ∈ (leaseRows key idOf elig lock tbl bs).1,
      ∃ t ∈ tbl, elig t = true ∧ s = lock t := by
  intro s hs
  rw [leaseRows_fst] at hs
  rcases List.mem_map.mp hs with ⟨t, ht, rfl⟩
  have ht2 : t ∈ sortAsc key (tbl.filter elig) := (List.take_sublist _ _).subset ht
  have ht3 : t ∈ tbl.filter elig := (sortAsc_perm key _).mem_iff.mp ht2
  rcases List.mem_filter.mp ht3 with ⟨htb, helig⟩
  exact ⟨t, htb, helig, rfl⟩

theorem leaseRows_mem_iff {α : Type} (key idOf : α → Int) (elig : α → Bool)
    (lock : α → α) (tbl : List α) (bs : Nat)
    (hid : ∀ r, idOf (lock r) = idOf r)
    (hnodup : (tbl.map idOf).Nodup)
    (hbs : tbl.length ≤ bs) (r : α) (hr : r ∈ tbl) :
    (∃ s ∈ (leaseRows key idOf elig lock tbl bs).1, idOf s = idOf r)
      ↔ elig r = true := by
  have hperm : (sortAsc key (tbl.filter elig)).Perm (tbl.filter elig) := sortAsc_perm key _
  have hlen : (sortAsc key (tbl.filter elig)).length ≤ bs := by
    rw [hperm.length_eq]
    exact le_trans (List.length_filter_le _ _) hbs
  constructor
  · rintro ⟨s, hs, hids⟩
    rcases leaseRows_fst_src key idOf elig lock tbl bs s hs with ⟨t, htb, helig, rfl⟩
    have hteq : t = r := List.inj_on_of_nodup_map hnodup htb hr (by rw [← hid t]; exact hids)
    rwa [← hteq]
  · intro helig
    refine ⟨lock r, ?_, hid r⟩
    rw [leaseRows_fst, List.take_of_length_le hlen]
    exact List.mem_map.mpr ⟨r, hperm.mem_iff.mpr (List.mem_filter.mpr ⟨hr, helig⟩), rfl⟩

theorem leaseRows_snd_cases {α : Type} (key idOf : α → Int) (elig : α → Bool)
    (lock : α → α) (tbl : List α) (bs : Nat) :
    ∀ s ∈ (leaseRows key idOf elig lock tbl bs).2,
      ∃ t ∈ tbl, s = lock t ∨ s = t := by
  intro s hs
  rw [leaseRows_snd] at hs
  rcases List.mem_map.mp hs with ⟨t, ht, rfl⟩
  refine ⟨t, ht, ?_⟩
  split
  · exact Or.inl rfl
  · exact Or.inr rfl

theorem leaseRows_snd_map_id {α : Type} (key idOf : α → Int) (elig : α → Bool)
    (lock : α → α) (tbl : List α) (bs : Nat)
    (hid : ∀ r, idOf (lock r) = idOf r) :
    (leaseRows key idOf elig lock tbl bs).2.map idOf = tbl.map idOf := by
  rw [leaseRows_snd, List.map_map]
  refine List.map_congr_left ?_
  intro a _
  dsimp only [Function.comp]
  split
  · exact hid a
  · rfl

theorem mapIf_idem {α : Type} (cond : α → Bool) (f : α → α)
    (h : ∀ r, cond r = true → cond (f r) = false) (tbl : List α) :
    (tbl.map fun r => if cond r then f r else r).map (fun r => if cond r then f r else r)
      = tbl.map fun r => if cond r then f r else r := by
  rw [List.map_map]
  refine List.map_congr_left ?_
  intro a _
  dsimp only [Function.comp]
  by_cases hc : cond a = true
  · simp [hc, h a hc]
  · simp [hc]

theorem mapIf_filter_nil {α : Type} (cond : α → Bool) (f : α → α)
    (h : ∀ r, cond r = true → cond (f r) = false) (tbl : List α) :
    (tbl.map fun r => if cond r then f r else r).filter cond = [] := by
  rw [List.filter_eq_nil_iff]
  intro a ha
  rcases List.mem_map.mp ha with ⟨b, _, rfl⟩
  by_cases hc : cond b = true
  · simp [hc, h b hc]
  · simp [hc]

theorem sortAsc_take_mem {α : Type} (key : α → Int) (p : α → Bool)
    (tbl : List α) (limit : Nat) (hlen : tbl.length ≤ limit) (r : α)
    (hr : r ∈ tbl) (hp : p r = true) :
    r ∈ (sortAsc key (tbl.filter p)).take limit := by
  have hperm := sortAsc_perm key (tbl.filter p)
  have hle : (sortAsc key (tbl.filter p)).length ≤ limit := by
    rw [hperm.length_eq]
    exact le_trans (List.length_filter_le _ _) hlen
  rw [List.take_of_length_le hle]
  exact hperm.mem_iff.mpr (List.mem_filter.mpr ⟨hr, hp⟩)

end ObsSys

namespace ObsSys.winbox

theorem MessageExists_map (tbl : List InboxMessage) (f : InboxMessage → InboxMessage)
    (hf : ∀ r, (f r).messageID = r.messageID) (mid : String) :
    MessageExists (tbl.map f) mid = MessageExists tbl mid := by
  unfold MessageExists
  rw [List.any_map]
  congr 1
  funext r
  dsimp only [Function.comp]
  rw [hf]

theorem MessageExists_markAsProcessed (tbl : List InboxMessage) (x : String)
    (now : Int) (mid : String) :
    MessageExists (MarkAsProcessed tbl x now) mid = MessageExists tbl mid := by
  unfold MarkAsProcessed
  exact MessageExists_map _ _ (fun r => by split <;> rfl) mid

theorem MessageExists_markAsFailed (tbl : List InboxMessage) (x : String)
    (now : Int) (mid : String) :
    MessageExists (MarkAsFailed tbl x now) mid = MessageExists tbl mid := by
  unfold MarkAsFailed
  exact MessageExists_map _ _ (fun r => by split <;> rfl) mid

theorem MessageExists_save (tbl : List InboxMessage) (mid ty pl : String)
    (now nid : Int) :
    MessageExists (Save tbl mid ty pl now nid).1 mid = true := by
  unfold Save
  by_cases h : tbl.any (fun r => r.messageID == mid) = true
  · simp [MessageExists, h]
  · simp [MessageExists, h, List.any_append]

theorem MessageExists_inboxHandler (tbl : List InboxMessage) (mid ty pl : String)
    (o : Except String Unit) (now nid : Int) :
    MessageExists (InboxHandler tbl mid ty pl o now nid).1 mid = true := by
  unfold InboxHandler
  by_cases h : MessageExists tbl mid = true
  · simp [h]
  · cases o with
    | error e =>
      simp only [h, Bool.false_eq_true, if_false, if_neg]
      rw [MessageExists_markAsFailed, MessageExists_save]
    | ok u =>
      simp only [h, Bool.false_eq_true, if_false, if_neg]
      rw [MessageExists_markAsProcessed, MessageExists_save]

theorem inboxHandler_exists (tbl : List InboxMessage) (mid ty pl : String)
    (o : Except String Unit) (now nid : Int) (h : MessageExists tbl mid = true) :
    InboxHandler tbl mid ty pl o now nid = (tbl, false, .ok ()) := by
  unfold InboxHandler
  simp [h]

theorem runDeliveries_exists (mid ty pl : String) (os : List (Except String Unit)) :
    ∀ (tbl : List InboxMessage) (now nid : Int), MessageExists tbl mid = true →
      runDeliveries tbl mid ty pl os now nid
        = (os.map (fun _ => (false, Except.ok ())), tbl) := by
  induction os with
  | nil => intro tbl now nid _; rfl
  | cons o os ih =>
    intro tbl now nid h
    unfold runDeliveries
    rw [inboxHandler_exists tbl mid ty pl o now nid h]
    simp [ih tbl (now + 1) (nid + 1) h]

end ObsSys.winbox
namespace ObsSys

/-- C1: For every sequence of inbox deliveries carrying the same message id
processed through the ingress guard, the wrapped business handler is invoked
at most once successfully, and every delivery after the first is acknowledged
(nil result) without invoking the handler. -/
theorem inboxHandler_dedup_at_most_once :
    ∀ (tbl : List winbox.InboxMessage) (mid ty pl : String)
      (outcomes : List (Except String Unit)) (now nid : Int),
      List.countP (fun p => p.1 && isOkE p.2)
        (winbox.runDeliveries tbl mid ty pl outcomes now nid).1 ≤ 1
    ∧ ∀ p ∈ (winbox.runDeliveries tbl mid ty pl outcomes now nid).1.drop 1,
        p = (false, Except.ok ()) := by
  intro tbl mid ty pl outcomes now nid
  cases outcomes with
  | nil =>
    constructor
    · simp [winbox.runDeliveries]
    · simp [winbox.runDeliveries]
  | cons o os =>
    have hex := winbox.MessageExists_inboxHandler tbl mid ty pl o now nid
    have hrest := winbox.runDeliveries_exists mid ty pl os
      (winbox.InboxHandler tbl mid ty pl o now nid).1 (now + 1) (nid + 1) hex
    have hstep : (winbox.runDeliveries tbl mid ty pl (o :: os) now nid).1
        = ((winbox.InboxHandler tbl mid ty pl o now nid).2.1,
           (winbox.InboxHandler tbl mid ty pl o now nid).2.2)
          :: os.map (fun _ => (false, Except.ok ())) := by
      simp only [winbox.runDeliveries, hrest]
    rw [hstep]
    constructor
    · rw [List.countP_cons]
      have hz : List.countP (fun p => p.1 && isOkE p.2)
          (os.map (fun _ => ((false : Bool), Except.ok ()))) = 0 := by
        rw [List.countP_eq_zero]
        intro a ha
        rcases List.mem_map.mp ha with ⟨_, _, rfl⟩
        simp
      rw [hz]
      split <;> simp
    · intro p hp
      simp only [List.drop_succ_cons, List.drop_zero] at hp
      rcases List.mem_map.mp hp with ⟨_, _, rfl⟩
      rfl

end ObsSys
namespace ObsSys

/-- C2 counterexample: a duplicate `Save` on the order-service inbox store
inserts no row but returns an error, contradicting the claim that both
variants return no error. -/
theorem save_duplicate_returns_error :
    inbox.Save [fix.dupRowO] "m1" "t2" "p2" 5 2
      = ([fix.dupRowO], .error "message already exists: m1") := by decide

/-- C2 (amended): on a duplicate message id, `Save` inserts no new row in
both inbox store variants; the warehouse variant returns nil, while the
order-service variant returns the error `message already exists: <id>`. -/
theorem save_duplicate_noop :
    ∀ (tblO : List inbox.InboxMessage) (tblW : List winbox.InboxMessage)
      (mid ty pl : String) (now nid : Int),
      (inbox.MessageExists tblO mid = true →
        inbox.Save tblO mid ty pl now nid
          = (tblO, .error ("message already exists: " ++ mid)))
    ∧ (winbox.MessageExists tblW mid = true →
        winbox.Save tblW mid ty pl now nid = (tblW, .ok ())) := by
  intro tblO tblW mid ty pl now nid
  constructor
  · intro h
    unfold inbox.MessageExists at h
    unfold inbox.Save
    rw [if_pos h]
  · intro h
    unfold winbox.MessageExists at h
    unfold winbox.Save
    rw [if_pos h]

theorem save_duplicate_noop_witness :
    inbox.Save [fix.dupRowO] "m1" "t" "p" 5 2
      = ([fix.dupRowO], .error ("message already exists: " ++ "m1"))
    ∧ winbox.Save [fix.dupRowW] "m1" "t" "p" 5 2 = ([fix.dupRowW], .ok ()) :=
  ⟨(save_duplicate_noop [fix.dupRowO] [fix.dupRowW] "m1" "t" "p" 5 2).1 (by decide),
   (save_duplicate_noop [fix.dupRowO] [fix.dupRowW] "m1" "t" "p" 5 2).2 (by decide)⟩

/-- C3 counterexample: an outbox row in status PROCESSING whose lock is
older than the 5-minute TTL is NOT selected by
`GetPendingMessagesForProcessing`, contradicting the claim that stale
PROCESSING rows are leased. -/
theorem stale_processing_not_leased :
    (outbox.GetPendingMessagesForProcessing [fix.stuckProcRow] "w1" 10 100).1 = []
    ∧ fix.stuckProcRow.status = "PROCESSING"
    ∧ fix.stuckProcRow.lockedAt = some 0
    ∧ ((0 : Int) < 100 - 5) := by decide

/-- C3 (amended): the lease selects (and transitions to PROCESSING, locking
them for the calling worker) exactly the rows passing the code's
eligibility predicate — outbox: status PENDING with a null or stale lock;
inbox: additionally FAILED rows with retry_count < maxRetries — limited to
batchSize; PROCESSING rows are never leased regardless of lock age. -/
theorem lease_selects_exactly_eligible :
    ∀ (tblO : List outbox.OutboxMessage) (tblI : List inbox.InboxMessage)
      (wid : String) (bs maxR : Nat) (now : Int),
      (outbox.GetPendingMessagesForProcessing tblO wid bs now).1.length ≤ bs
    ∧ ((tblO.map (fun r => r.id)).Nodup → tblO.length ≤ bs →
        ∀ r ∈ tblO,
          ((∃ s ∈ (outbox.GetPendingMessagesForProcessing tblO wid bs now).1, s.id = r.id)
            ↔ outbox.leaseEligible r now = true))
    ∧ (∀ s ∈ (outbox.GetPendingMessagesForProcessing tblO wid bs now).1,
        s.status = "PROCESSING" ∧ s.lockedAt = some now ∧ s.lockedBy = some wid)
    ∧ (inbox.GetPendingMessagesForProcessing tblI wid bs maxR now).1.length ≤ bs
    ∧ ((tblI.map (fun r => r.id)).Nodup → tblI.length ≤ bs →
        ∀ r ∈ tblI,
          ((∃ s ∈ (inbox.GetPendingMessagesForProcessing tblI wid bs maxR now).1, s.id = r.id)
            ↔ inbox.leaseEligible r maxR now = true))
    ∧ (∀ s ∈ (inbox.GetPendingMessagesForProcessing tblI wid bs maxR now).1,
        s.status = "PROCESSING" ∧ s.lockedAt = some now ∧ s.lockedBy = some wid) := by
  intro tblO tblI wid bs maxR now
  refine ⟨?_, ?_, ?_, ?_, ?_, ?_⟩
  · exact leaseRows_fst_length _ _ _ _ tblO bs
  · intro hnd hbs r hr
    exact leaseRows_mem_iff (fun r => r.createdAt) (fun r => r.id)
      (fun r => outbox.leaseEligible r now) (fun r => outbox.lockRow r wid now)
      tblO bs (by intro r; rfl) hnd hbs r hr
  · intro s hs
    rcases leaseRows_fst_src _ _ _ _ tblO bs s hs with ⟨t, _, _, rfl⟩
    exact ⟨rfl, rfl, rfl⟩
  · exact leaseRows_fst_length _ _ _ _ tblI bs
  · intro hnd hbs r hr
    exact leaseRows_mem_iff (fun r => r.createdAt) (fun r => r.id)
      (fun r => inbox.leaseEligible r maxR now) (fun r => inbox.lockRow r wid now)
      tblI bs (by intro r; rfl) hnd hbs r hr
  · intro s hs
    rcases leaseRows_fst_src _ _ _ _ tblI bs s hs with ⟨t, _, _, rfl⟩
    exact ⟨rfl, rfl, rfl⟩

theorem lease_selects_exactly_eligible_witness :
    ((∃ s ∈ (outbox.GetPendingMessagesForProcessing [fix.pendingUpperRow] "w" 3 7).1,
        s.id = fix.pendingUpperRow.id)
      ↔ outbox.leaseEligible fix.pendingUpperRow 7 = true)
    ∧ ((∃ s ∈ (inbox.GetPendingMessagesForProcessing [fix.m3Row] "w" 3 3 7).1,
        s.id = fix.m3Row.id)
      ↔ inbox.leaseEligible fix.m3Row 3 7 = true) :=
  ⟨(lease_selects_exactly_eligible [fix.pendingUpperRow] [fix.m3Row] "w" 3 3 7).2.1
    (by decide) (by decide) fix.pendingUpperRow (by decide),
   (lease_selects_exactly_eligible [fix.pendingUpperRow] [fix.m3Row] "w" 3 3 7).2.2.2.2.1
    (by decide) (by decide) fix.m3Row (by decide)⟩

end ObsSys
namespace ObsSys

/-- C4: on handler failure the worker calls `MarkAsFailed` exactly when
`retry_count + 1 >= maxRetries` and `IncrementRetryAndMarkPending` otherwise;
with an always-failing handler and maxRetries = 3 the M3 row is handled
exactly 3 times over 5 worker cycles, ends FAILED with retry_count 3 and a
non-null error, and is never leased again. -/
theorem worker_retry_exhaustion :
    (∀ (tbl : List inbox.InboxMessage) (maxR : Nat) (now : Int)
       (msg : inbox.InboxMessage) (e : String),
        (maxR ≤ msg.retryCount + 1 →
          inbox.processOne tbl maxR now msg (.error e)
            = inbox.MarkAsFailed tbl msg.id e now)
      ∧ (msg.retryCount + 1 < maxR →
          inbox.processOne tbl maxR now msg (.error e)
            = inbox.IncrementRetryAndMarkPending tbl msg.id e now))
  ∧ inbox.runCycles (fun _ => .error "boom") "w" 3 3 5 [fix.m3Row] 0
      = (3, [fix.m3Failed])
  ∧ fix.m3Failed.status = "FAILED" ∧ fix.m3Failed.retryCount = 3
  ∧ fix.m3Failed.error = some "boom"
  ∧ ∀ now2 : Int,
      (inbox.GetPendingMessagesForProcessing [fix.m3Failed] "w" 3 3 now2).1 = [] := by
  refine ⟨?_, by decide, by decide, by decide, by decide, ?_⟩
  · intro tbl maxR now msg e
    constructor
    · intro h
      show (if msg.retryCount + 1 ≥ maxR then inbox.MarkAsFailed tbl msg.id e now
            else inbox.IncrementRetryAndMarkPending tbl msg.id e now)
          = inbox.MarkAsFailed tbl msg.id e now
      rw [if_pos h]
    · intro h
      show (if msg.retryCount + 1 ≥ maxR then inbox.MarkAsFailed tbl msg.id e now
            else inbox.IncrementRetryAndMarkPending tbl msg.id e now)
          = inbox.IncrementRetryAndMarkPending tbl msg.id e now
      rw [if_neg (by omega)]
  · intro now2
    rfl

theorem worker_retry_exhaustion_witness :
    inbox.processOne [] 3 0 fix.m3Failed (.error "e")
      = inbox.MarkAsFailed [] fix.m3Failed.id "e" 0
    ∧ inbox.processOne [] 3 0 fix.m3Row (.error "e")
      = inbox.IncrementRetryAndMarkPending [] fix.m3Row.id "e" 0 :=
  ⟨(worker_retry_exhaustion.1 [] 3 0 fix.m3Failed "e").1 (by decide),
   (worker_retry_exhaustion.1 [] 3 0 fix.m3Row "e").2 (by decide)⟩

end ObsSys
namespace ObsSys.inbox

theorem map_ids_of_pointwise (tbl : List InboxMessage)
    (f : InboxMessage → InboxMessage) (hf : ∀ r, (f r).id = r.id) :
    (tbl.map f).map (fun r => r.id) = tbl.map (fun r => r.id) := by
  rw [List.map_map]
  refine List.map_congr_left ?_
  intro a _
  exact hf a

theorem markAsProcessed_ids (tbl : List InboxMessage) (x : Int) (now : Int) :
    (MarkAsProcessed tbl x now).map (fun r => r.id) = tbl.map (fun r => r.id) := by
  unfold MarkAsProcessed
  exact map_ids_of_pointwise tbl _ (fun r => by split <;> rfl)

theorem incrementRetry_ids (tbl : List InboxMessage) (x : Int) (e : String) (now : Int) :
    (IncrementRetryAndMarkPending tbl x e now).map (fun r => r.id)
      = tbl.map (fun r => r.id) := by
  unfold IncrementRetryAndMarkPending
  exact map_ids_of_pointwise tbl _ (fun r => by split <;> rfl)

theorem markAsFailed_ids (tbl : List InboxMessage) (x : Int) (e : String) (now : Int) :
    (MarkAsFailed tbl x e now).map (fun r => r.id) = tbl.map (fun r => r.id) := by
  unfold MarkAsFailed
  exact map_ids_of_pointwise tbl _ (fun r => by split <;> rfl)

theorem resetStuck_ids (tbl : List InboxMessage) (tmo now : Int) :
    (ResetStuckMessages tbl tmo now).1.map (fun r => r.id)
      = tbl.map (fun r => r.id) := by
  show (tbl.map fun r => if stuckCond r tmo now then
      { r with status := "PENDING", lockedAt := none, lockedBy := none,
               updatedAt := now } else r).map (fun r => r.id) = _
  exact map_ids_of_pointwise tbl _ (fun r => by split <;> rfl)

theorem save_preserves_inv (maxR : Nat) (tbl : List InboxMessage)
    (mid ty pl : String) (now nid : Int) (hfresh : ∀ r ∈ tbl, r.id ≠ nid)
    (hinv : Inv maxR tbl) : Inv maxR (Save tbl mid ty pl now nid).1 := by
  obtain ⟨hnd, hf⟩ := hinv
  unfold Save
  by_cases h : tbl.any (fun r => r.messageID == mid) = true
  · rw [if_pos h]
    exact ⟨hnd, hf⟩
  · rw [if_neg h]
    constructor
    · rw [List.map_append, List.nodup_append]
      refine ⟨hnd, by simp, ?_⟩
      intro a ha hb
      rcases List.mem_map.mp ha with ⟨r, hr, rfl⟩
      simp only [List.map_cons, List.map_nil, List.mem_singleton] at hb
      exact hfresh r hr hb
    · intro r hr hst
      rcases List.mem_append.mp hr with h1 | h2
      · exact hf r h1 hst
      · simp only [List.mem_singleton] at h2
        subst h2
        rcases hst with h3 | h3
        · exact absurd h3 (by decide : ¬("PENDING" = "FAILED"))
        · exact absurd h3 (by decide : ¬("PENDING" = "failed"))

theorem lease_preserves_inv (maxR : Nat) (tbl : List InboxMessage)
    (wid : String) (bs : Nat) (now : Int) (hinv : Inv maxR tbl) :
    Inv maxR (GetPendingMessagesForProcessing tbl wid bs maxR now).2 := by
  obtain ⟨hnd, hf⟩ := hinv
  unfold GetPendingMessagesForProcessing
  constructor
  · rw [ObsSys.leaseRows_snd_map_id (fun r => r.createdAt) (fun r => r.id)
      (fun r => leaseEligible r maxR now) (fun r => lockRow r wid now)
      tbl bs (by intro r; rfl)]
    exact hnd
  · intro r hr
    rcases ObsSys.leaseRows_snd_cases (fun r => r.createdAt) (fun r => r.id)
      (fun r => leaseEligible r maxR now) (fun r => lockRow r wid now)
      tbl bs r hr with ⟨t, ht, hlock | heq⟩
    · subst hlock
      intro hst
      rcases hst with h3 | h3
      · exact absurd h3 (by decide : ¬("PROCESSING" = "FAILED"))
      · exact absurd h3 (by decide : ¬("PROCESSING" = "failed"))
    · subst heq
      exact hf _ ht

theorem processOne_preserves_inv (maxR : Nat) (tbl : List InboxMessage)
    (msg : InboxMessage) (res : Except String Unit) (now : Int)
    (hmem : msg ∈ tbl) (hinv : Inv maxR tbl) :
    Inv maxR (processOne tbl maxR now msg res) := by
  obtain ⟨hnd, hf⟩ := hinv
  cases res with
  | ok u =>
    show Inv maxR (MarkAsProcessed tbl msg.id now)
    constructor
    · rw [markAsProcessed_ids]
      exact hnd
    · intro r hr hst
      rcases List.mem_map.mp hr with ⟨b, hb, rfl⟩
      by_cases hc : (b.id == msg.id) = true
      · rw [if_pos hc] at hst
        rcases hst with h3 | h3
        · exact absurd h3 (by decide : ¬("PROCESSED" = "FAILED"))
        · exact absurd h3 (by decide : ¬("PROCESSED" = "failed"))
      · rw [if_neg hc] at hst ⊢
        exact hf b hb hst
  | error e =>
    show Inv maxR (if msg.retryCount + 1 ≥ maxR
                   then MarkAsFailed tbl msg.id e now
                   else IncrementRetryAndMarkPending tbl msg.id e now)
    by_cases hge : msg.retryCount + 1 ≥ maxR
    · rw [if_pos hge]
      constructor
      · rw [markAsFailed_ids]
        exact hnd
      · intro r hr hst
        rcases List.mem_map.mp hr with ⟨b, hb, rfl⟩
        by_cases hc : (b.id == msg.id) = true
        · rw [if_pos hc]
          have hbm : b = msg :=
            List.inj_on_of_nodup_map hnd hb hmem (beq_iff_eq.mp hc)
          show maxR ≤ b.retryCount + 1
          rw [hbm]
          exact hge
        · rw [if_neg hc] at hst ⊢
          exact hf b hb hst
    · rw [if_neg hge]
      constructor
      · rw [incrementRetry_ids]
        exact hnd
      · intro r hr hst
        rcases List.mem_map.mp hr with ⟨b, hb, rfl⟩
        by_cases hc : (b.id == msg.id) = true
        · rw [if_pos hc] at hst
          rcases hst with h3 | h3
          · exact absurd h3 (by decide : ¬("PENDING" = "FAILED"))
          · exact absurd h3 (by decide : ¬("PENDING" = "failed"))
        · rw [if_neg hc] at hst ⊢
          exact hf b hb hst

theorem reset_preserves_inv (maxR : Nat) (tbl : List InboxMessage)
    (tmo now : Int) (hinv : Inv maxR tbl) :
    Inv maxR (ResetStuckMessages tbl tmo now).1 := by
  obtain ⟨hnd, hf⟩ := hinv
  constructor
  · rw [resetStuck_ids]
    exact hnd
  · intro r hr hst
    rcases List.mem_map.mp hr with ⟨b, hb, rfl⟩
    by_cases hc : stuckCond b tmo now = true
    · rw [if_pos hc] at hst
      rcases hst with h3 | h3
      · exact absurd h3 (by decide : ¬("PENDING" = "FAILED"))
      · exact absurd h3 (by decide : ¬("PENDING" = "failed"))
    · rw [if_neg hc] at hst ⊢
      exact hf b hb hst

theorem workerOp_preserves_inv (maxR : Nat) (a b : List InboxMessage)
    (hstep : WorkerOp maxR a b) (hinv : Inv maxR a) : Inv maxR b := by
  cases hstep with
  | save mid ty pl now nid hfresh =>
    exact save_preserves_inv maxR a mid ty pl now nid hfresh hinv
  | lease wid bs now => exact lease_preserves_inv maxR a wid bs now hinv
  | finalize msg res now hmem =>
    exact processOne_preserves_inv maxR a msg res now hmem hinv
  | reset tmo now => exact reset_preserves_inv maxR a tmo now hinv

end ObsSys.inbox

namespace ObsSys

/-- C5 counterexample: the ingress guard's failure path marks a first
delivery as failed with retry_count 1, below the default retry budget 3 —
so the system CAN set a failed status while retry_count < max_retries. -/
theorem guard_fails_below_budget :
    (winbox.InboxHandler [] "m1" "order.created" "p" (.error "boom") 0 1).1
      = [fix.wFailedRow]
    ∧ fix.wFailedRow.status = "failed"
    ∧ fix.wFailedRow.retryCount = 1
    ∧ (1 : Nat) < 3 := by decide

/-- C5 (amended): restricted to the order-service inbox worker operations
(Save with fresh id, lease, per-row finalization, reset-stuck), every
reachable table keeps the invariant that a FAILED row has
retry_count >= maxRetries; the warehouse ingress guard's failure path is
excluded because it violates the invariant. -/
theorem worker_failed_implies_budget_exhausted :
    ∀ (maxR : Nat) (tbl0 tbl : List inbox.InboxMessage),
      inbox.Inv maxR tbl0 →
      Relation.ReflTransGen (inbox.WorkerOp maxR) tbl0 tbl →
      inbox.FailedInv maxR tbl := by
  intro maxR tbl0 tbl h0 hreach
  have hinv : inbox.Inv maxR tbl := by
    induction hreach with
    | refl => exact h0
    | tail _ hbc ih => exact inbox.workerOp_preserves_inv maxR _ _ hbc ih
  exact hinv.2

theorem worker_failed_implies_budget_exhausted_witness :
    (3 : Nat) ≤ fix.m3Failed.retryCount :=
  worker_failed_implies_budget_exhausted 3 [fix.m3Failed] [fix.m3Failed]
    ⟨by decide, by intro r hr hst; rw [List.mem_singleton.mp hr]; decide⟩
    Relation.ReflTransGen.refl
    fix.m3Failed (by decide) (Or.inl rfl)

end ObsSys
namespace ObsSys

/-- C6 counterexample: a row with the legacy lowercase status pending is not
leased by `GetPendingMessagesForProcessing`, while the identical row with
uppercase PENDING is — so lowercase is NOT accepted the same as uppercase. -/
theorem lowercase_pending_not_leased :
    (outbox.GetPendingMessagesForProcessing [fix.pendingLowerRow] "w" 5 100).1 = []
    ∧ (outbox.GetPendingMessagesForProcessing [fix.pendingUpperRow] "w" 5 100).1 ≠ [] := by
  decide

/-- C6 (amended): the legacy lowercase pending status is accepted only by
the warehouse outbox's non-locking `GetPendingMessages` reader; the leasing
`GetPendingMessagesForProcessing` matches only uppercase PENDING rows, so
every leased row originates from an uppercase-PENDING row. -/
theorem lowercase_only_in_legacy_reader :
    ∀ (tbl : List outbox.OutboxMessage) (limit : Nat) (wid : String) (bs : Nat)
      (now : Int) (r : outbox.OutboxMessage),
      (r ∈ tbl → (r.status = "PENDING" ∨ r.status = "pending") → tbl.length ≤ limit →
        r ∈ woutbox.GetPendingMessages tbl limit)
    ∧ (∀ s ∈ (outbox.GetPendingMessagesForProcessing tbl wid bs now).1,
        ∃ t ∈ tbl, t.status = "PENDING" ∧ s.id = t.id) := by
  intro tbl limit wid bs now r
  constructor
  · intro hr hst hlen
    unfold woutbox.GetPendingMessages
    refine sortAsc_take_mem (fun r => r.createdAt)
      (fun r => r.status == "PENDING" || r.status == "pending") tbl limit hlen r hr ?_
    rcases hst with h | h <;> simp [h]
  · intro s hs
    unfold outbox.GetPendingMessagesForProcessing at hs
    rcases leaseRows_fst_src (fun r => r.createdAt) (fun r => r.id)
      (fun r => outbox.leaseEligible r now) (fun r => outbox.lockRow r wid now)
      tbl bs s hs with ⟨t, ht, helig, rfl⟩
    refine ⟨t, ht, ?_, rfl⟩
    unfold outbox.leaseEligible at helig
    simp only [Bool.and_eq_true] at helig
    exact beq_iff_eq.mp helig.1

theorem lowercase_only_in_legacy_reader_witness :
    fix.pendingLowerRow ∈ woutbox.GetPendingMessages [fix.pendingLowerRow] 5
    ∧ ∃ t ∈ [fix.pendingUpperRow], t.status = "PENDING"
        ∧ (outbox.lockRow fix.pendingUpperRow "w" 0).id = t.id :=
  ⟨(lowercase_only_in_legacy_reader [fix.pendingLowerRow] 5 "w" 1 0
      fix.pendingLowerRow).1 (by decide) (Or.inr rfl) (by decide),
   (lowercase_only_in_legacy_reader [fix.pendingUpperRow] 5 "w" 1 0
      fix.pendingUpperRow).2 (outbox.lockRow fix.pendingUpperRow "w" 0) (by decide)⟩

/-- C7: within a single lease batch, the returned rows of both the inbox and
the outbox `GetPendingMessagesForProcessing` are ordered by created_at
ascending. -/
theorem lease_fifo_by_created_at :
    ∀ (tblI : List inbox.InboxMessage) (widI : String) (bsI maxR : Nat) (nowI : Int)
      (tblO : List outbox.OutboxMessage) (widO : String) (bsO : Nat) (nowO : Int),
      List.Pairwise (fun a b => a.createdAt ≤ b.createdAt)
        (inbox.GetPendingMessagesForProcessing tblI widI bsI maxR nowI).1
    ∧ List.Pairwise (fun a b => a.createdAt ≤ b.createdAt)
        (outbox.GetPendingMessagesForProcessing tblO widO bsO nowO).1 := by
  intro tblI widI bsI maxR nowI tblO widO bsO nowO
  constructor
  · exact leaseRows_fst_sorted (fun r => r.createdAt) (fun r => r.id)
      (fun r => inbox.leaseEligible r maxR nowI)
      (fun r => inbox.lockRow r widI nowI) tblI bsI (by intro r; rfl)
  · exact leaseRows_fst_sorted (fun r => r.createdAt) (fun r => r.id)
      (fun r => outbox.leaseEligible r nowO)
      (fun r => outbox.lockRow r widO nowO) tblO bsO (by intro r; rfl)

/-- C8: `ResetStuckMessages` is idempotent for both stores: a second
immediate run returns the same table and affects zero rows; it only
modifies PROCESSING rows with a stale lock, setting them to PENDING with
null lock fields. -/
theorem resetStuck_idempotent :
    ∀ (tblI : List inbox.InboxMessage) (tblO : List outbox.OutboxMessage)
      (tmo now : Int),
      inbox.ResetStuckMessages (inbox.ResetStuckMessages tblI tmo now).1 tmo now
        = ((inbox.ResetStuckMessages tblI tmo now).1, 0)
    ∧ (∀ r ∈ tblI, inbox.stuckCond r tmo now = false →
        r ∈ (inbox.ResetStuckMessages tblI tmo now).1)
    ∧ (∀ r ∈ (inbox.ResetStuckMessages tblI tmo now).1,
        r ∈ tblI ∨ (r.status = "PENDING" ∧ r.lockedAt = none ∧ r.lockedBy = none))
    ∧ outbox.ResetStuckMessages (outbox.ResetStuckMessages tblO tmo now).1 tmo now
        = ((outbox.ResetStuckMessages tblO tmo now).1, 0)
    ∧ (∀ r ∈ tblO, outbox.stuckCond r tmo now = false →
        r ∈ (outbox.ResetStuckMessages tblO tmo now).1)
    ∧ (∀ r ∈ (outbox.ResetStuckMessages tblO tmo now).1,
        r ∈ tblO ∨ (r.status = "PENDING" ∧ r.lockedAt = none ∧ r.lockedBy = none)) := by
  intro tblI tblO tmo now
  have hcondI : ∀ r : inbox.InboxMessage, inbox.stuckCond r tmo now = true →
      inbox.stuckCond
        { r with
          status := "PENDING", lockedAt := none, lockedBy := none,
          updatedAt := now } tmo now = false := fun r _ => rfl
  have hcondO : ∀ r : outbox.OutboxMessage, outbox.stuckCond r tmo now = true →
      outbox.stuckCond
        { r with
          status := "PENDING", lockedAt := none, lockedBy := none,
          updatedAt := now } tmo now = false := fun r _ => rfl
  refine ⟨?_, ?_, ?_, ?_, ?_, ?_⟩
  · unfold inbox.ResetStuckMessages
    dsimp only
    rw [mapIf_idem _ _ hcondI tblI, mapIf_filter_nil _ _ hcondI tblI]
    rfl
  · intro r hr h
    unfold inbox.ResetStuckMessages
    dsimp only
    refine List.mem_map.mpr ⟨r, hr, ?_⟩
    simp [h]
  · intro r hr
    unfold inbox.ResetStuckMessages at hr
    dsimp only at hr
    rcases List.mem_map.mp hr with ⟨b, hb, rfl⟩
    by_cases hc : inbox.stuckCond b tmo now = true
    · rw [if_pos hc]
      exact Or.inr ⟨rfl, rfl, rfl⟩
    · rw [if_neg hc]
      exact Or.inl hb
  · unfold outbox.ResetStuckMessages
    dsimp only
    rw [mapIf_idem _ _ hcondO tblO, mapIf_filter_nil _ _ hcondO tblO]
    rfl
  · intro r hr h
    unfold outbox.ResetStuckMessages
    dsimp only
    refine List.mem_map.mpr ⟨r, hr, ?_⟩
    simp [h]
  · intro r hr
    unfold outbox.ResetStuckMessages at hr
    dsimp only at hr
    rcases List.mem_map.mp hr with ⟨b, hb, rfl⟩
    by_cases hc : outbox.stuckCond b tmo now = true
    · rw [if_pos hc]
      exact Or.inr ⟨rfl, rfl, rfl⟩
    · rw [if_neg hc]
      exact Or.inl hb

end ObsSys
namespace ObsSys

/-- C9: when no handler is registered for a leased row's event type, the
registry dispatch returns success with a warning logged and no handler
invoked, the worker consequently marks the row PROCESSED, and a PROCESSED
row is never lease-eligible again. -/
theorem unknown_event_type_acked_processed :
    ∀ (hs : List (String × handlers.HandlerFunc)) (msg : inbox.InboxMessage)
      (tbl : List inbox.InboxMessage) (maxR maxR2 : Nat) (now now2 : Int),
      handlers.lookupHandler hs msg.eventType = none →
      handlers.HandleMessage hs msg = (.ok (), true, none)
    ∧ inbox.processOne tbl maxR now msg (handlers.HandleMessage hs msg).1
        = inbox.MarkAsProcessed tbl msg.id now
    ∧ (∀ r ∈ inbox.MarkAsProcessed tbl msg.id now,
        r.id = msg.id →
          r.status = "PROCESSED" ∧ inbox.leaseEligible r maxR2 now2 = false) := by
  intro hs msg tbl maxR maxR2 now now2 h
  have h1 : handlers.HandleMessage hs msg = (.ok (), true, none) := by
    unfold handlers.HandleMessage
    rw [h]
  refine ⟨h1, ?_, ?_⟩
  · rw [h1]
    rfl
  · intro r hr hid
    unfold inbox.MarkAsProcessed at hr
    rcases List.mem_map.mp hr with ⟨b, hb, rfl⟩
    by_cases hc : (b.id == msg.id) = true
    · rw [if_pos hc]
      exact ⟨rfl, rfl⟩
    · rw [if_neg hc] at hid
      exact absurd (beq_iff_eq.mpr hid) hc

theorem unknown_event_type_acked_processed_witness :
    handlers.HandleMessage [] fix.m3Row = (.ok (), true, none)
    ∧ (fix.m3Processed.status = "PROCESSED"
        ∧ inbox.leaseEligible fix.m3Processed 3 0 = false) :=
  ⟨(unknown_event_type_acked_processed [] fix.m3Row [] 3 3 0 0 rfl).1,
   (unknown_event_type_acked_processed [] fix.m3Row [fix.m3Row] 3 3 0 0 rfl).2.2
     fix.m3Processed (by decide) rfl⟩

/-- C10: `GetAll` returns at most 100 rows ordered by created_at descending,
and on a database error it returns an empty list with a nil error, so the
GET /api/inbox endpoint reports 200 with count 0 instead of an error. -/
theorem getAll_swallows_db_error :
    ∀ (tbl : List inbox.InboxMessage) (dbFails : Bool),
      (inbox.GetAll tbl dbFails).1.length ≤ 100
    ∧ List.Pairwise (fun a b => b.createdAt ≤ a.createdAt) (inbox.GetAll tbl dbFails).1
    ∧ (dbFails = true →
        inbox.GetAll tbl dbFails = ([], none)
        ∧ handlers.GetInboxMessages tbl dbFails = { statusCode := 200, count := 0 }) := by
  intro tbl dbFails
  cases dbFails with
  | true =>
    refine ⟨by simp [inbox.GetAll], by simp [inbox.GetAll], fun _ => ⟨rfl, rfl⟩⟩
  | false =>
    refine ⟨?_, ?_, fun h => Bool.noConfusion h⟩
    · show ((sortDesc (fun r => r.createdAt) tbl).take 100).length ≤ 100
      exact List.length_take_le _ _
    · show List.Pairwise _ ((sortDesc (fun r => r.createdAt) tbl).take 100)
      refine List.Pairwise.sublist (List.take_sublist _ _) ?_
      refine List.Pairwise.imp ?_ (sortDesc_sorted (fun r => r.createdAt) tbl)
      intro a b hab
      exact hab

theorem getAll_swallows_db_error_witness :
    inbox.GetAll [fix.m3Row] true = ([], none)
    ∧ handlers.GetInboxMessages [fix.m3Row] true = { statusCode := 200, count := 0 } :=
  (getAll_swallows_db_error [fix.m3Row] true).2.2 rfl

end ObsSys

namespace ObsSys

theorem inboxHandler_dedup_at_most_once_witness :
    List.countP (fun p => p.1 && isOkE p.2)
      (winbox.runDeliveries [] "m1" "t" "p" [Except.ok (), Except.ok ()] 0 1).1 ≤ 1
    ∧ ((false : Bool), (Except.ok () : Except String Unit))
        = ((false : Bool), (Except.ok () : Except String Unit)) :=
  ⟨(inboxHandler_dedup_at_most_once [] "m1" "t" "p" [Except.ok (), Except.ok ()] 0 1).1,
   (inboxHandler_dedup_at_most_once [] "m1" "t" "p" [Except.ok (), Except.ok ()] 0 1).2
     ((false : Bool), (Except.ok () : Except String Unit)) (by decide)⟩

theorem resetStuck_idempotent_witness :
    fix.m3Row ∈ (inbox.ResetStuckMessages [fix.m3Row] 5 0).1
    ∧ fix.pendingUpperRow ∈ (outbox.ResetStuckMessages [fix.pendingUpperRow] 5 0).1 :=
  ⟨(resetStuck_idempotent [fix.m3Row] [fix.pendingUpperRow] 5 0).2.1
     fix.m3Row (by decide) (by decide),
   (resetStuck_idempotent [fix.m3Row] [fix.pendingUpperRow] 5 0).2.2.2.2.1
     fix.pendingUpperRow (by decide) (by decide)⟩

end ObsSys
